import Mathlib

/-!
Verification of the better-pace-calculator core against its specification.

The TypeScript source is embedded shallowly: JavaScript numbers are modelled
as rationals (`ℚ`), strings as Lean `String`/`List Char`, and the fallible
`parseInt` as `Option ℤ`.  Every definition mirrors the corresponding source
function in `src/calculator.ts` / `src/inputHandler.ts`.
-/

namespace PaceCalc

/-- The quantity tuple `PaceData` from the source: pace (min per unit),
speed (units per hour), distance (units), time (minutes). -/
structure PaceData where
  pace : ℚ
  speed : ℚ
  distance : ℚ
  time : ℚ
deriving DecidableEq, Repr

/-- The `CalculatedField` derivation selector union type. -/
inductive CalculatedField where
  | paceSpeed
  | distance
  | time
deriving DecidableEq, Repr

/-- The `changedField` argument of `recalculate`. -/
inductive ChangedField where
  | pace
  | speed
  | distance
  | time
deriving DecidableEq, Repr

/-- Source `paceToSpeed(pace)`: `if (pace <= 0) return 0; return 60 / pace`. -/
def paceToSpeed (pace : ℚ) : ℚ :=
  if pace ≤ 0 then 0 else 60 / pace

/-- Source `speedToPace(speed)`: `if (speed <= 0) return 0; return 60 / speed`. -/
def speedToPace (speed : ℚ) : ℚ :=
  if speed ≤ 0 then 0 else 60 / speed

/-- Source `calculateTime(pace, distance) = pace * distance`. -/
def calculateTime (pace distance : ℚ) : ℚ :=
  pace * distance

/-- Source `calculateDistance(pace, time)`: `if (pace <= 0) return 0; return time / pace`. -/
def calculateDistance (pace time : ℚ) : ℚ :=
  if pace ≤ 0 then 0 else time / pace

/-- Source `calculatePaceFromTimeDistance(time, distance)`:
`if (distance <= 0) return 0; return time / distance`. -/
def calculatePaceFromTimeDistance (time distance : ℚ) : ℚ :=
  if distance ≤ 0 then 0 else time / distance

/-- Source `recalculate(data, calculatedField, changedField)`:
first the unconditional pace/speed sync on the edited field, then the
derivation branch on `calculatedField`, each arm guarded by positivity
of its two inputs. -/
def recalculate (data : PaceData) (calculatedField : CalculatedField)
    (changedField : ChangedField) : PaceData :=
  let result :=
    match changedField with
    | .pace => { data with speed := paceToSpeed data.pace }
    | .speed => { data with pace := speedToPace data.speed }
    | .distance => data
    | .time => data
  match calculatedField with
  | .paceSpeed =>
      if result.distance > 0 ∧ result.time > 0 then
        { result with
          pace := calculatePaceFromTimeDistance result.time result.distance
          speed := paceToSpeed
            (calculatePaceFromTimeDistance result.time result.distance) }
      else result
  | .distance =>
      if result.pace > 0 ∧ result.time > 0 then
        { result with distance := calculateDistance result.pace result.time }
      else result
  | .time =>
      if result.pace > 0 ∧ result.distance > 0 then
        { result with time := calculateTime result.pace result.distance }
      else result

/-- JavaScript `String.prototype.split(sep)` for a one-character separator,
on character lists: `"" → [""]`, a trailing separator yields a trailing empty
chunk, exactly as in the source's `timeString.split(':')`. -/
def splitOnChar (sep : Char) : List Char → List (List Char)
  | [] => [[]]
  | c :: cs =>
      let r := splitOnChar sep cs
      if c = sep then [] :: r
      else (c :: r.headD []) :: r.tail

/-- Digit run to its decimal value, as `parseInt` accumulates it. -/
def digitsToNat (ds : List Char) : ℕ :=
  ds.foldl (fun acc c => acc * 10 + (c.toNat - 48)) 0

/-- The digit-consuming part of `parseInt`: take the leading run of decimal
digits; no leading digit means `NaN` (modelled as `none`). -/
def parseDigits (cs : List Char) : Option ℕ :=
  let ds := cs.takeWhile Char.isDigit
  if ds.isEmpty then none else some (digitsToNat ds)

/-- JavaScript `parseInt(s)` (radix 10): skip leading whitespace, read an
optional sign, then the longest leading digit run, ignoring any trailing
characters; `NaN` (here `none`) when no digit is found.  The hexadecimal
`0x` radix inference of `parseInt` is not modelled — no time/pace string the
claims mention uses it. -/
def parseIntJS (s : List Char) : Option ℤ :=
  let t := s.dropWhile (fun c => c = ' ' ∨ c = '\t' ∨ c = '\n' ∨ c = '\r')
  match t with
  | '-' :: rest => (parseDigits rest).map (fun n => -(n : ℤ))
  | '+' :: rest => (parseDigits rest).map (fun n => (n : ℤ))
  | _ => (parseDigits t).map (fun n => (n : ℤ))

/-- Source `parseTime(timeString)`: split on `:`; two parts parse as
`minutes + seconds/60`, three parts as `hours*60 + minutes + seconds/60`;
any `NaN` component or any other part count yields `0`. -/
def parseTime (s : String) : ℚ :=
  match splitOnChar ':' s.data with
  | [a, b] =>
      match parseIntJS a, parseIntJS b with
      | some m, some sec => (m : ℚ) + (sec : ℚ) / 60
      | _, _ => 0
  | [a, b, c] =>
      match parseIntJS a, parseIntJS b, parseIntJS c with
      | some h, some m, some sec => (h : ℚ) * 60 + (m : ℚ) + (sec : ℚ) / 60
      | _, _, _ => 0
  | _ => 0

/-- Source `parsePace(paceString)`: split on `:`; exactly two parts required; both
must parse and the seconds component must satisfy `0 ≤ seconds < 60`, else `0`. -/
def parsePace (s : String) : ℚ :=
  match splitOnChar ':' s.data with
  | [a, b] =>
      match parseIntJS a, parseIntJS b with
      | some m, some sec =>
          if sec ≥ 60 ∨ sec < 0 then 0 else (m : ℚ) + (sec : ℚ) / 60
      | _, _ => 0
  | _ => 0

/-- JavaScript `Math.round` on rationals: `floor(x + 1/2)`. -/
def jsRound (x : ℚ) : ℤ :=
  ⌊x + 1/2⌋

/-- The integer part used by JavaScript's `%`: truncation toward zero. -/
def jsTrunc (x : ℚ) : ℤ :=
  if x < 0 then ⌈x⌉ else ⌊x⌋

/-- JavaScript remainder `x % y` (truncated-division remainder). -/
def jsMod (x y : ℚ) : ℚ :=
  x - y * (jsTrunc (x / y) : ℚ)

/-- JavaScript `String.prototype.padStart(n, c)`. -/
def padStart (s : String) (n : ℕ) (c : Char) : String :=
  String.mk (List.replicate (n - s.length) c) ++ s

/-- JavaScript `String.prototype.substring(a, b)` for `a ≤ b`. -/
def jsSubstring (s : String) (a b : ℕ) : String :=
  String.mk ((s.data.drop a).take (b - a))

/-- Source `formatPace(minutes)`: whole minutes via `Math.floor`, seconds via
`Math.round` of the fractional part times 60, both zero-padded to width 2. -/
def formatPace (minutes : ℚ) : String :=
  padStart (toString ⌊minutes⌋) 2 '0' ++ ":" ++
    padStart (toString (jsRound ((minutes - (⌊minutes⌋ : ℚ)) * 60))) 2 '0'

/-- Source `formatTime(minutes)`: `HH:MM:SS` with hours `Math.floor(minutes/60)`,
minutes `Math.floor(minutes % 60)`, seconds `Math.round((minutes % 1) * 60)`. -/
def formatTime (minutes : ℚ) : String :=
  padStart (toString ⌊minutes / 60⌋) 2 '0' ++ ":" ++
    padStart (toString ⌊jsMod minutes 60⌋) 2 '0' ++ ":" ++
    padStart (toString (jsRound (jsMod minutes 1 * 60))) 2 '0'

/-- Source `SegmentedTimeInput.formatNumbers(numbers)`: left-pad the digit string
with zeros to the mask width (6 digits for the `HH:MM:SS` time mask, 4 for
the `MM:SS` mask) and insert the colon separators. -/
def formatNumbers (isTime : Bool) (numbers : String) : String :=
  if isTime then
    let p := padStart numbers 6 '0'
    jsSubstring p 0 2 ++ ":" ++ jsSubstring p 2 4 ++ ":" ++ jsSubstring p 4 6
  else
    let p := padStart numbers 4 '0'
    jsSubstring p 0 2 ++ ":" ++ jsSubstring p 2 4

/-- The full-selection branch of `SegmentedTimeInput.handleDigitInput`:
when `selectionStart !== selectionEnd`, the field is set to
`formatNumbers(digit)` and the caret to offset 1 (`setSelectionRange(1, 1)`).
Returns the new display string and the caret offset. -/
def handleDigitInputFullSelection (isTime : Bool) (digit : Char) : String × ℕ :=
  (formatNumbers isTime (String.mk [digit]), 1)

/-- JavaScript `String.prototype.replace(c, d)` with one-character
arguments: replaces only the first occurrence. -/
def replaceFirst : List Char → Char → Char → List Char
  | [], _, _ => []
  | c :: cs, a, b => if c = a then b :: cs else c :: replaceFirst cs a b

/-- The comma conversion plus non-numeric strip of `NumericInput.handleInput`:
`value.replace(',', '.')` (first occurrence only) then removal of every
character that is not a digit or a period. -/
def cleanedContent (raw : List Char) : List Char :=
  (replaceFirst raw ',' '.').filter (fun c => c.isDigit || c == '.')

/-- The value produced by `NumericInput.handleInput` on raw content:
split the cleaned content on periods; if more than two chunks, collapse to
the first chunk, a period, and the remaining chunks joined; if exactly two
chunks and the fractional chunk exceeds `maxDecimals`, truncate it. -/
def handleInputList (maxDecimals : ℕ) (raw : List Char) : List Char :=
  let cleanValue := cleanedContent raw
  let parts := splitOnChar '.' cleanValue
  let value :=
    if parts.length > 2 then
      (parts.headD []) ++ '.' :: (parts.drop 1).flatten
    else cleanValue
  if parts.length = 2 ∧ (parts.getD 1 []).length > maxDecimals then
    (parts.headD []) ++ '.' :: (parts.getD 1 []).take maxDecimals
  else value

/-- Source `NumericInput.handleInput` content normalization as a string function. -/
def handleInputValue (maxDecimals : ℕ) (raw : String) : String :=
  String.mk (handleInputList maxDecimals raw.data)

end PaceCalc

namespace PaceCalc

/-- C1: with `distance > 0` and `time > 0`, the `pace-speed` derivation sets
`pace = time/distance` and `speed = paceToSpeed (time/distance) = 60/(time/distance)`,
leaving distance and time unchanged, for every edited field; and the concrete
scenario `recalculate({5,12,8,50}, pace-speed, distance) = {6.25, 9.6, 8, 50}`. -/
theorem recalculate_paceSpeed_derives (d : PaceData) (f : ChangedField)
    (hd : d.distance > 0) (ht : d.time > 0) :
    (recalculate d .paceSpeed f).pace = d.time / d.distance ∧
    (recalculate d .paceSpeed f).speed = 60 / (d.time / d.distance) ∧
    (recalculate d .paceSpeed f).distance = d.distance ∧
    (recalculate d .paceSpeed f).time = d.time ∧
    recalculate ⟨5, 12, 8, 50⟩ .paceSpeed .distance = ⟨25/4, 48/5, 8, 50⟩ := by
  have hq : (0 : ℚ) < d.time / d.distance := div_pos ht hd
  cases f <;>
    simp only [recalculate, calculatePaceFromTimeDistance, paceToSpeed] <;>
    constructor <;>
    simp_all [not_le.mpr hd, not_le.mpr ht, not_le.mpr hq, le_of_lt] <;>
    norm_num [recalculate, calculatePaceFromTimeDistance, paceToSpeed]

/-- Witness for C1 at the concrete scenario input. -/
theorem recalculate_paceSpeed_derives_witness :
    (recalculate ⟨5, 12, 8, 50⟩ .paceSpeed .distance).pace = 50 / 8 ∧
    (recalculate ⟨5, 12, 8, 50⟩ .paceSpeed .distance).speed = 60 / (50 / 8) := by
  have h := recalculate_paceSpeed_derives ⟨5, 12, 8, 50⟩ .distance
    (by norm_num) (by norm_num)
  exact ⟨h.1, h.2.1⟩

/-- C2: `recalculate` is idempotent on every tuple, selector and edited field
(reapplying it with the same arguments yields the same tuple), and — being a
total Lean function — it raises no error on any input. -/
theorem recalculate_idem (d : PaceData) (s : CalculatedField) (f : ChangedField) :
    recalculate (recalculate d s f) s f = recalculate d s f := by
  cases s <;> cases f <;>
    simp only [recalculate] <;>
    split_ifs <;>
    simp_all

/-- C3 counterexample: with derivation selector `pace-speed` and positive
distance and time, the step-2 derivation overwrites the step-1 sync, so the
result's speed is not `paceToSpeed` of the input pace: at
`{pace:5,speed:12,distance:8,time:50}` with `editedField = pace` the result
speed is `9.6`, while `paceToSpeed 5 = 12`. -/
theorem recalculate_sync_not_paceSpeed_selector :
    (recalculate ⟨5, 12, 8, 50⟩ .paceSpeed .pace).speed = 48/5 ∧
    paceToSpeed 5 = 12 ∧
    (recalculate ⟨5, 12, 8, 50⟩ .paceSpeed .pace).speed ≠ paceToSpeed 5 := by
  norm_num [recalculate, paceToSpeed, calculatePaceFromTimeDistance]

/-- C3 amended: when the derivation selector is `distance` or `time`, the
pace/speed sync survives into the result: editing pace forces
`speed = paceToSpeed (input pace)`, editing speed forces
`pace = speedToPace (input speed)`.  Under selector `pace-speed` with positive
distance and time the derivation branch overwrites the synced pair. -/
theorem recalculate_sync_distance_time (d : PaceData) (s : CalculatedField)
    (hs : s = .distance ∨ s = .time) :
    (recalculate d s .pace).speed = paceToSpeed d.pace ∧
    (recalculate d s .speed).pace = speedToPace d.speed := by
  rcases hs with h | h <;> subst h <;>
    constructor <;>
    simp only [recalculate] <;>
    split_ifs <;>
    simp_all

/-- Witness for C3 amended at a concrete tuple and selector. -/
theorem recalculate_sync_distance_time_witness :
    (recalculate ⟨6, 12, 10, 50⟩ .distance .pace).speed = paceToSpeed 6 ∧
    (recalculate ⟨6, 12, 10, 50⟩ .distance .speed).pace = speedToPace 12 :=
  recalculate_sync_distance_time ⟨6, 12, 10, 50⟩ .distance (Or.inl rfl)

/-- C4: frame conditions of `recalculate` — time is preserved unless the
selector is `time`; distance is preserved unless the selector is `distance`;
pace and speed are preserved unless the edited field is pace or speed or the
selector is `pace-speed`. -/
theorem recalculate_frame (d : PaceData) (s : CalculatedField) (f : ChangedField) :
    (s ≠ .time → (recalculate d s f).time = d.time) ∧
    (s ≠ .distance → (recalculate d s f).distance = d.distance) ∧
    (f ≠ .pace → f ≠ .speed → s ≠ .paceSpeed →
      (recalculate d s f).pace = d.pace ∧ (recalculate d s f).speed = d.speed) := by
  cases s <;> cases f <;>
    refine ⟨fun h1 => ?_, fun h2 => ?_, fun h3 h4 h5 => ?_⟩ <;>
    simp_all only [ne_eq, not_false_eq_true, not_true_eq_false] <;>
    simp only [recalculate] <;>
    split_ifs <;>
    simp_all

/-- Witness for C4: the frame conditions applied at concrete inputs that
satisfy each clause's hypotheses. -/
theorem recalculate_frame_witness :
    (recalculate ⟨5, 12, 10, 50⟩ .distance .time).time = 50 ∧
    (recalculate ⟨5, 12, 10, 50⟩ .time .distance).distance = 10 ∧
    (recalculate ⟨5, 12, 10, 50⟩ .distance .time).pace = 5 ∧
    (recalculate ⟨5, 12, 10, 50⟩ .distance .time).speed = 12 := by
  have h1 := (recalculate_frame ⟨5, 12, 10, 50⟩ .distance .time).1
    (by simp)
  have h2 := (recalculate_frame ⟨5, 12, 10, 50⟩ .time .distance).2.1
    (by simp)
  have h3 := (recalculate_frame ⟨5, 12, 10, 50⟩ .distance .time).2.2
    (by simp) (by simp) (by simp)
  exact ⟨h1, h2, h3.1, h3.2⟩

/-- Concrete evaluation: `parseTime "01:30:00" = 90`. -/
lemma parseTime_0130 : parseTime "01:30:00" = 90 := by
  have hl : splitOnChar ':' "01:30:00".data = [['0', '1'], ['3', '0'], ['0', '0']] := by
    decide
  have h1 : parseIntJS ['0', '1'] = some 1 := by decide
  have h2 : parseIntJS ['3', '0'] = some 30 := by decide
  have h3 : parseIntJS ['0', '0'] = some 0 := by decide
  simp [parseTime, hl, h1, h2, h3]
  norm_num

/-- Concrete evaluation: `parseTime "1:2:3:4" = 0` (four parts). -/
lemma parseTime_1234 : parseTime "1:2:3:4" = 0 := by
  have hl : splitOnChar ':' "1:2:3:4".data = [['1'], ['2'], ['3'], ['4']] := by
    decide
  simp [parseTime, hl]

/-- Concrete evaluation: `parseTime "" = 0` (single empty part). -/
lemma parseTime_empty : parseTime "" = 0 := by
  have hl : splitOnChar ':' "".data = [[]] := by decide
  simp [parseTime, hl]

/-- Concrete evaluation: `parseTime "00:99"` combines out-of-range seconds. -/
lemma parseTime_0099 : parseTime "00:99" = 33/20 := by
  have hl : splitOnChar ':' "00:99".data = [['0', '0'], ['9', '9']] := by decide
  have h1 : parseIntJS ['0', '0'] = some 0 := by decide
  have h2 : parseIntJS ['9', '9'] = some 99 := by decide
  simp [parseTime, hl, h1, h2]
  norm_num

/-- Concrete evaluation: `parseTime "5:-30"` combines negative seconds. -/
lemma parseTime_5neg30 : parseTime "5:-30" = 9/2 := by
  have hl : splitOnChar ':' "5:-30".data = [['5'], ['-', '3', '0']] := by decide
  have h1 : parseIntJS ['5'] = some 5 := by decide
  have h2 : parseIntJS ['-', '3', '0'] = some (-30) := by decide
  simp [parseTime, hl, h1, h2]
  norm_num

/-- Concrete evaluation: `parsePace "00:99" = 0` (seconds ≥ 60 rejected). -/
lemma parsePace_0099 : parsePace "00:99" = 0 := by
  have hl : splitOnChar ':' "00:99".data = [['0', '0'], ['9', '9']] := by decide
  have h1 : parseIntJS ['0', '0'] = some 0 := by decide
  have h2 : parseIntJS ['9', '9'] = some 99 := by decide
  simp [parsePace, hl, h1, h2]

/-- Concrete evaluation: `parsePace "5:-30" = 0` (negative seconds rejected). -/
lemma parsePace_5neg30 : parsePace "5:-30" = 0 := by
  have hl : splitOnChar ':' "5:-30".data = [['5'], ['-', '3', '0']] := by decide
  have h1 : parseIntJS ['5'] = some 5 := by decide
  have h2 : parseIntJS ['-', '3', '0'] = some (-30) := by decide
  simp [parsePace, hl, h1, h2]

/-- C8: `parseTime` returns `minutes + seconds/60` on a 2-part split,
`hours*60 + minutes + seconds/60` on a 3-part split, and `0` for any other
part count or any part `parseInt` cannot read a number from; concretely
`parseTime "01:30:00" = 90`, `parseTime "1:2:3:4" = 0`, `parseTime "" = 0`. -/
theorem parseTime_spec (s : String) :
    (∀ a b, splitOnChar ':' s.data = [a, b] →
      ∀ m sec : ℤ, parseIntJS a = some m → parseIntJS b = some sec →
        parseTime s = (m : ℚ) + (sec : ℚ) / 60) ∧
    (∀ a b c, splitOnChar ':' s.data = [a, b, c] →
      ∀ hh m sec : ℤ, parseIntJS a = some hh → parseIntJS b = some m →
        parseIntJS c = some sec →
        parseTime s = (hh : ℚ) * 60 + (m : ℚ) + (sec : ℚ) / 60) ∧
    ((splitOnChar ':' s.data).length ≠ 2 → (splitOnChar ':' s.data).length ≠ 3 →
      parseTime s = 0) ∧
    (∀ p, p ∈ splitOnChar ':' s.data → parseIntJS p = none → parseTime s = 0) ∧
    parseTime "01:30:00" = 90 ∧ parseTime "1:2:3:4" = 0 ∧ parseTime "" = 0 := by
  refine ⟨?_, ?_, ?_, ?_, parseTime_0130, parseTime_1234, parseTime_empty⟩
  · intro a b hab m sec hm hsec
    simp [parseTime, hab, hm, hsec]
  · intro a b c hab hh m sec h1 h2 h3
    simp [parseTime, hab, h1, h2, h3]
  · intro h2 h3
    rcases hl : splitOnChar ':' s.data with _ | ⟨a, _ | ⟨b, _ | ⟨c, _ | ⟨e, rest⟩⟩⟩⟩ <;>
      simp_all [parseTime]
  · intro p hp hnone
    rcases hl : splitOnChar ':' s.data with _ | ⟨a, _ | ⟨b, _ | ⟨c, _ | ⟨e, rest⟩⟩⟩⟩
    · simp [parseTime, hl]
    · simp [parseTime, hl]
    · rw [hl] at hp
      simp only [List.mem_cons, List.not_mem_nil, or_false] at hp
      rcases ha : parseIntJS a with _ | m
      · simp [parseTime, hl, ha]
      · rcases hb : parseIntJS b with _ | sec
        · simp [parseTime, hl, ha, hb]
        · rcases hp with rfl | rfl
          · rw [hnone] at ha; exact absurd ha (by simp)
          · rw [hnone] at hb; exact absurd hb (by simp)
    · rw [hl] at hp
      simp only [List.mem_cons, List.not_mem_nil, or_false] at hp
      rcases ha : parseIntJS a with _ | hh
      · simp [parseTime, hl, ha]
      · rcases hb : parseIntJS b with _ | m
        · simp [parseTime, hl, ha, hb]
        · rcases hc : parseIntJS c with _ | sec
          · simp [parseTime, hl, ha, hb, hc]
          · rcases hp with rfl | rfl | rfl
            · rw [hnone] at ha; exact absurd ha (by simp)
            · rw [hnone] at hb; exact absurd hb (by simp)
            · rw [hnone] at hc; exact absurd hc (by simp)
    · simp [parseTime, hl]

/-- Witness for C8 at `"01:30:00"`. -/
theorem parseTime_spec_witness :
    parseTime "01:30:00" = ((1 : ℤ) : ℚ) * 60 + ((30 : ℤ) : ℚ) + ((0 : ℤ) : ℚ) / 60 :=
  (parseTime_spec "01:30:00").2.1
    ['0', '1'] ['3', '0'] ['0', '0'] (by decide) 1 30 0
    (by decide) (by decide) (by decide)

/-- C10: `parseTime` performs no range validation — a 2-part string whose
seconds component is ≥ 60 or negative still yields `minutes + seconds/60` —
while `parsePace` rejects exactly those and returns `0`; concretely
`parseTime "00:99" = 1.65`, `parseTime "5:-30" = 4.5`, and `parsePace` maps
both to `0`. -/
theorem parseTime_no_range_check (s : String) (a b : List Char) (m sec : ℤ)
    (hsplit : splitOnChar ':' s.data = [a, b])
    (hm : parseIntJS a = some m) (hsec : parseIntJS b = some sec)
    (hrange : 60 ≤ sec ∨ sec < 0) :
    parseTime s = (m : ℚ) + (sec : ℚ) / 60 ∧ parsePace s = 0 ∧
    parseTime "00:99" = 33/20 ∧ parseTime "5:-30" = 9/2 ∧
    parsePace "00:99" = 0 ∧ parsePace "5:-30" = 0 := by
  refine ⟨?_, ?_, parseTime_0099, parseTime_5neg30, parsePace_0099, parsePace_5neg30⟩
  · simp [parseTime, hsplit, hm, hsec]
  · simp [parsePace, hsplit, hm, hsec]
    intro hge hlt
    rcases hrange with h | h
    · exact absurd h (not_le.mpr hge)
    · exact absurd h (not_lt.mpr hlt)

/-- Witness for C10 at `"00:99"`. -/
theorem parseTime_no_range_check_witness :
    parseTime "00:99" = ((0 : ℤ) : ℚ) + ((99 : ℤ) : ℚ) / 60 ∧ parsePace "00:99" = 0 := by
  have h := parseTime_no_range_check "00:99" ['0', '0'] ['9', '9'] 0 99
    (by decide) (by decide) (by decide) (Or.inl (by decide))
  exact ⟨h.1, h.2.1⟩

/-- C7: `paceToSpeed` returns `60/pace` for positive pace and `0` otherwise
(totally, never an error), `speedToPace` symmetrically, and the concrete
scenario values `paceToSpeed 5 = 12`, `paceToSpeed 0 = 0`, `paceToSpeed (-1) = 0`. -/
theorem paceToSpeed_speedToPace_spec :
    (∀ p : ℚ, paceToSpeed p = if p > 0 then 60 / p else 0) ∧
    (∀ s : ℚ, speedToPace s = if s > 0 then 60 / s else 0) ∧
    paceToSpeed 5 = 12 ∧ paceToSpeed 0 = 0 ∧ paceToSpeed (-1) = 0 ∧
    speedToPace 12 = 5 ∧ speedToPace 0 = 0 ∧ speedToPace (-1) = 0 := by
  refine ⟨?_, ?_, ?_, ?_, ?_, ?_, ?_, ?_⟩ <;>
    first
      | (intro x
         simp only [paceToSpeed, speedToPace]
         split_ifs with h1 h2 <;> first | rfl | linarith)
      | norm_num [paceToSpeed, speedToPace]

end PaceCalc

namespace PaceCalc

/-- C5 counterexample: typing digit `5` on a fully-selected `MM:SS` field
does not yield the display `"05:00"` — `formatNumbers` left-pads the single
digit into the mask, giving `"00:05"`. -/
theorem segmented_full_selection_counterexample :
    handleDigitInputFullSelection false '5' ≠ ("05:00", 1) := by
  decide

/-- C5 amended: typing digit `5` on a fully-selected `MM:SS` field yields
the display `"00:05"` (the digit left-padded into the mask) with the caret
at offset 1 (immediately after the first displayed digit). -/
theorem segmented_full_selection_amended :
    handleDigitInputFullSelection false '5' = ("00:05", 1) := by
  decide

/-- C9: a minutes value within half a second of a whole minute — here
`4 + 59.99/60 = 29999/6000` — makes the rounded seconds slot render `60`:
`formatPace` yields `"04:60"` and `formatTime` yields `"00:04:60"`, neither
carrying the overflow into the minutes part. -/
theorem format_seconds_sixty :
    formatPace (29999/6000) = "04:60" ∧ formatTime (29999/6000) = "00:04:60" := by
  have h1 : ⌊(29999/6000 : ℚ)⌋ = 4 := by
    rw [Int.floor_eq_iff]
    norm_num
  have h2 : jsRound (((29999/6000 : ℚ) - ((4 : ℤ) : ℚ)) * 60) = 60 := by
    unfold jsRound
    rw [Int.floor_eq_iff]
    norm_num
  have h3 : ⌊(29999/6000 : ℚ) / 60⌋ = 0 := by
    rw [Int.floor_eq_iff]
    norm_num
  have h4 : jsMod (29999/6000 : ℚ) 60 = 29999/6000 := by
    unfold jsMod jsTrunc
    rw [if_neg (by norm_num), h3]
    norm_num
  have h6 : jsMod (29999/6000 : ℚ) 1 = 5999/6000 := by
    unfold jsMod jsTrunc
    rw [if_neg (by norm_num), (by norm_num : (29999/6000 : ℚ) / 1 = 29999/6000), h1]
    norm_num
  have h7 : jsRound ((5999/6000 : ℚ) * 60) = 60 := by
    unfold jsRound
    rw [Int.floor_eq_iff]
    norm_num
  constructor
  · unfold formatPace
    rw [h1, h2]
    decide
  · unfold formatTime
    rw [h3, h4, h1, h6, h7]
    decide

end PaceCalc

namespace PaceCalc

/-- Helper: `splitOnChar` never returns the empty list of chunks. -/
lemma splitOnChar_ne_nil (sep : Char) (cs : List Char) :
    splitOnChar sep cs ≠ [] := by
  cases cs with
  | nil => simp [splitOnChar]
  | cons c cs =>
      simp only [splitOnChar]
      split <;> simp

/-- No chunk produced by `splitOnChar` contains the separator. -/
lemma sep_not_mem_of_mem_splitOnChar (sep : Char) (cs : List Char) :
    ∀ l ∈ splitOnChar sep cs, sep ∉ l := by
  induction cs with
  | nil =>
      intro l hl
      simp only [splitOnChar, List.mem_singleton] at hl
      simp [hl]
  | cons c cs ih =>
      intro l hl
      simp only [splitOnChar] at hl
      split at hl
      · rcases List.mem_cons.mp hl with rfl | hl'
        · simp
        · exact ih l hl'
      · rcases List.mem_cons.mp hl with rfl | hl'
        · intro hmem
          rcases List.mem_cons.mp hmem with hcontra | hmem'
          · rename_i hne
            exact hne hcontra.symm
          · rcases hr : splitOnChar sep cs with _ | ⟨hd, tl⟩
            · exact splitOnChar_ne_nil sep cs hr
            · rw [hr] at hmem'
              simp only [List.headD_cons] at hmem'
              exact ih hd (by rw [hr]; exact List.mem_cons_self hd tl) hmem'
        · exact ih l (List.mem_of_mem_tail hl')

/-- A separator-free list splits into the single chunk holding it. -/
lemma splitOnChar_eq_singleton (sep : Char) (cs : List Char) (h : sep ∉ cs) :
    splitOnChar sep cs = [cs] := by
  induction cs with
  | nil => rfl
  | cons c cs ih =>
      simp only [List.mem_cons, not_or] at h
      have hc : ¬ c = sep := fun hh => h.1 hh.symm
      simp [splitOnChar, hc, ih h.2]

/-- Splitting `a ++ sep :: b` with `sep`-free `a` yields `a` and the split of `b`. -/
lemma splitOnChar_append (sep : Char) (a b : List Char) (ha : sep ∉ a) :
    splitOnChar sep (a ++ sep :: b) = a :: splitOnChar sep b := by
  induction a with
  | nil => simp [splitOnChar]
  | cons c a ih =>
      simp only [List.mem_cons, not_or] at ha
      have hc : ¬ c = sep := fun hh => ha.1 hh.symm
      simp [splitOnChar, hc, ih ha.2]

end PaceCalc

namespace PaceCalc

/-- Concrete evaluation: the C6 scenario `"12.4567"` with `maxDecimals = 2`. -/
lemma handleInputValue_scenario : handleInputValue 2 "12.4567" = "12.45" := by
  decide

/-- C6 counterexample: on content with two periods and `maxDecimals = 2`,
the collapse branch runs but the truncation branch does not (it fires only
when the split has exactly two chunks), so `"1.23.45"` normalizes to
`"1.2345"`, whose fractional part has 4 > 2 digits. -/
theorem numeric_truncation_counterexample :
    handleInputValue 2 "1.23.45" = "1.2345" ∧
    ¬ ((splitOnChar '.' (handleInputList 2 "1.23.45".data)).getD 1 []).length ≤ 2 := by
  decide

/-- C6 amended: the normalized content always contains at most one period,
and whenever the cleaned content splits into at most two chunks (at most one
period survived cleaning) the fractional part is truncated to `maxDecimals`
digits; the scenario `"12.4567" → "12.45"` holds.  With two or more periods
in the cleaned content the collapsed fractional part is not truncated. -/
theorem handleInputValue_spec (maxD : ℕ) (raw : String) :
    (splitOnChar '.' (handleInputList maxD raw.data)).length ≤ 2 ∧
    ((splitOnChar '.' (cleanedContent raw.data)).length ≤ 2 →
      ∀ fr ∈ (splitOnChar '.' (handleInputList maxD raw.data)).drop 1,
        fr.length ≤ maxD) ∧
    handleInputValue 2 "12.4567" = "12.45" := by
  have hmem := sep_not_mem_of_mem_splitOnChar '.' (cleanedContent raw.data)
  rcases hp : splitOnChar '.' (cleanedContent raw.data)
    with _ | ⟨p0, _ | ⟨p1, _ | ⟨p2, rest⟩⟩⟩
  · exact absurd hp (splitOnChar_ne_nil _ _)
  · refine ⟨?_, ?_, handleInputValue_scenario⟩
    · simp [handleInputList, hp]
    · intro _ fr hfr
      simp [handleInputList, hp] at hfr
  · have h0 : '.' ∉ p0 := hmem p0 (by rw [hp]; simp)
    have h1 : '.' ∉ p1 := hmem p1 (by rw [hp]; simp)
    by_cases hlen : p1.length > maxD
    · have h1t : '.' ∉ p1.take maxD := fun hx => h1 (List.take_subset _ _ hx)
      have hres : handleInputList maxD raw.data = p0 ++ '.' :: p1.take maxD := by
        simp [handleInputList, hp, hlen]
      have hsplit : splitOnChar '.' (p0 ++ '.' :: p1.take maxD)
          = [p0, p1.take maxD] := by
        rw [splitOnChar_append _ _ _ h0, splitOnChar_eq_singleton _ _ h1t]
      refine ⟨?_, ?_, handleInputValue_scenario⟩
      · rw [hres, hsplit]
        simp
      · intro _ fr hfr
        rw [hres, hsplit] at hfr
        simp only [List.drop_succ_cons, List.drop_zero, List.mem_singleton] at hfr
        subst hfr
        simp
    · have hres : handleInputList maxD raw.data = cleanedContent raw.data := by
        simp [handleInputList, hp, hlen]
      refine ⟨?_, ?_, handleInputValue_scenario⟩
      · rw [hres, hp]
        simp
      · intro _ fr hfr
        rw [hres, hp] at hfr
        simp only [List.drop_succ_cons, List.drop_zero, List.mem_singleton] at hfr
        subst hfr
        exact le_of_not_lt hlen
  · have h0 : '.' ∉ p0 := hmem p0 (by rw [hp]; simp)
    have hflat : '.' ∉ (p1 :: p2 :: rest).flatten := by
      intro hx
      rcases List.mem_flatten.mp hx with ⟨l, hl, hxl⟩
      refine hmem l ?_ hxl
      rw [hp]
      exact List.mem_cons_of_mem p0 hl
    have hres : handleInputList maxD raw.data
        = p0 ++ '.' :: (p1 :: p2 :: rest).flatten := by
      simp [handleInputList, hp]
    have hsplit : splitOnChar '.' (p0 ++ '.' :: (p1 :: p2 :: rest).flatten)
        = [p0, (p1 :: p2 :: rest).flatten] := by
      rw [splitOnChar_append _ _ _ h0, splitOnChar_eq_singleton _ _ hflat]
    refine ⟨?_, ?_, handleInputValue_scenario⟩
    · rw [hres, hsplit]
      simp
    · intro hhyp
      exact absurd hhyp (by simp only [List.length_cons]; omega)

/-- Witness for C6 amended at the scenario input. -/
theorem handleInputValue_spec_witness :
    ((splitOnChar '.' (handleInputList 2 "12.4567".data)).getD 1 []).length ≤ 2 := by
  have h := (handleInputValue_spec 2 "12.4567").2.1 (by decide)
  exact h _ (by decide)

end PaceCalc
